import Mathlib

/-!
Verification of the lidmeta pipeline and search service against its
specification.  Each section shallowly embeds the Python source it names:
pure functions become Lean functions, the stateful search handler becomes
explicit metric-state passing, machine floats (BM25 ranks, similarity
ratios) are modelled as rationals, and fallible steps return `Option` or
`Except`.  Definitions follow the source code; definitions written from the
spec's words for comparison are named with a `claimed`/`claim` prefix.
-/

set_option autoImplicit false

namespace LidMeta

/-! Text helpers: Python `str` values are modelled as `List Char`
(so byte/character positions and slicing are explicit), with
`String` kept for opaque identifiers and paths. -/

/-- Python `str.isspace` characters that `str.strip()` removes
(the ones that occur in NDJSON text). -/
def isSpc (c : Char) : Bool :=
  c == ' ' || c == '\t' || c == '\n' || c == '\r'

/-- Python `s.strip()`. -/
def trimL (l : List Char) : List Char :=
  ((l.dropWhile isSpc).reverse.dropWhile isSpc).reverse

/-- Python `hay.startswith(needle)`: `startsWithL needle hay`. -/
def startsWithL : List Char → List Char → Bool
  | [], _ => true
  | _ :: _, [] => false
  | a :: as, b :: bs => a == b && startsWithL as bs

/-- Python `hay.endswith(needle)`: `endsWithL needle hay`. -/
def endsWithL (needle hay : List Char) : Bool :=
  startsWithL needle.reverse hay.reverse

/-- Python `needle in hay` on strings: substring containment. -/
def containsL (needle : List Char) : List Char → Bool
  | [] => startsWithL needle []
  | c :: cs => startsWithL needle (c :: cs) || containsL needle cs

/-- Python `<` on strings: code-point lexicographic; `lexLe a b` is `a <= b`. -/
def lexLe : List Char → List Char → Bool
  | [], _ => true
  | _ :: _, [] => false
  | a :: as, b :: bs => if a = b then lexLe as bs else decide (a < b)

/-- Stable insertion of `a` into `l`, before the first element `b` with
`le a b`; `sortByB le` below is a stable sort, as Python `list.sort` is. -/
def insSorted {α : Type} (le : α → α → Bool) (a : α) : List α → List α
  | [] => [a]
  | b :: bs => if le a b then a :: b :: bs else b :: insSorted le a bs

/-- Stable sort modelling Python `list.sort(key=..., reverse=...)`:
pass the ordering the key and direction induce as `le`. -/
def sortByB {α : Type} (le : α → α → Bool) (l : List α) : List α :=
  l.foldr (insSorted le) []

/-- `set(...)` collected in encounter order: first occurrence kept. -/
def dedupFrom (seen : List String) : List String → List String
  | [] => []
  | a :: as => if seen.contains a then dedupFrom seen as else a :: dedupFrom (a :: seen) as

/-- Distinct elements of `l`, first occurrences first. -/
def dedupL (l : List String) : List String := dedupFrom [] l

/-- Python `int(q)` on a float value: truncation toward zero. -/
def truncQ (q : ℚ) : ℤ := if 0 ≤ q then ⌊q⌋ else -⌊-q⌋

/-- Python `round(q)` (banker's rounding: ties go to the even integer). -/
def pyRound (q : ℚ) : ℤ :=
  if q - ⌊q⌋ < 1/2 then ⌊q⌋
  else if 1/2 < q - ⌊q⌋ then ⌊q⌋ + 1
  else if ⌊q⌋ % 2 = 0 then ⌊q⌋ else ⌊q⌋ + 1

namespace Scoring

/-!
`search_service/main.py`, `_search_artists_impl` lines 330-375: the score
given to one FTS candidate.  `qf` and `nf` are the ASCII-folded lower-cased
query and candidate name (`unidecode(q.lower())`, `unidecode(name.lower())`);
`r` is the BM25 rank.
-/

/-- `base_score = max(1, int(100 - bm25_rank)) if bm25_rank else 50`:
a falsy (zero) rank short-circuits to 50; otherwise `int()` truncates. -/
def codeBase (r : ℚ) : ℤ := if r = 0 then 50 else max 1 (truncQ (100 - r))

/-- The boost chain of `_search_artists_impl`: exact match, then
`startswith(query + " ")`, then `" query " in " name "` (both sides padded
with spaces), then `endswith(" " + query)`. -/
def boostOf (qf nf : List Char) : ℤ :=
  if nf = qf then 50
  else if startsWithL (qf ++ [' ']) nf = true then 30
  else if containsL ((' ' :: qf) ++ [' ']) ((' ' :: nf) ++ [' ']) = true then 20
  else if endsWithL (' ' :: qf) nf = true then 10
  else 0

/-- `score = base_score + boost`. -/
def codeScore (qf nf : List Char) (r : ℚ) : ℤ := codeBase r + boostOf qf nf

/-- Written from the claim's words: `base = max(1, round(100 - rank))`. -/
def claimBase (r : ℚ) : ℤ := max 1 (pyRound (100 - r))

/-- Written from the claim's words: 50 exact, 30 prefix-word, 20 when the
query occurs as an interior word of the name, 10 when it is a suffix. -/
def claimBoost (qf nf : List Char) : ℤ :=
  if nf = qf then 50
  else if startsWithL (qf ++ [' ']) nf = true then 30
  else if containsL ((' ' :: qf) ++ [' ']) nf = true then 20
  else if endsWithL (' ' :: qf) nf = true then 10
  else 0

/-- The claim's score. -/
def claimScore (qf nf : List Char) (r : ℚ) : ℤ := claimBase r + claimBoost qf nf

end Scoring

namespace Normalize

/-!
`data_processor/normalizer.py`: release-date formatting, the artist base
object, the artist document's album summaries, and the release-status
aggregation of `normalize_album_data`.
-/

/-- `format_release_date` (normalizer.py lines 18-29).  The `try` body is
pure string work, so the `except` arm is dead. -/
def format_release_date (s : String) : String :=
  if s = "" then ""
  else if s.length = 4 then s ++ "-01-01"
  else if s.length = 7 then s ++ "-01"
  else s

/-- `rating` input: `{"vote-count": ..., "value": ...}`, either key may be
absent or null. -/
structure RawRating where
  voteCount : Option ℤ
  value : Option ℚ
deriving DecidableEq

/-- Output `rating` object. -/
structure Rating where
  count : ℤ
  value : ℚ
deriving DecidableEq

/-- `extract_rating`: `{count: 0, value: 0.0}` when absent, else
`vote-count` defaulted to 0 and `value or 0.0`. -/
def extract_rating (r : Option RawRating) : Rating :=
  match r with
  | none => { count := 0, value := 0 }
  | some rr => { count := rr.voteCount.getD 0, value := rr.value.getD 0 }

/-- One `tags` entry: only its `name` key is read. -/
structure RawTag where
  name : Option String
deriving DecidableEq

/-- `extract_genres`: tag names that are present and non-empty (truthy). -/
def extract_genres (tags : List RawTag) : List String :=
  tags.filterMap fun t =>
    match t.name with
    | some s => if s = "" then none else some s
    | none => none

/-- One `relations` entry: its `type` and, when the relation has a url
object with a `resource`, that resource. -/
structure RawRelation where
  type : Option String
  urlResource : Option String
deriving DecidableEq

/-- `extract_links`: `{type, target}` pairs for relations whose `type`,
`url` and `url.resource` are all truthy. -/
def extract_links (rels : List RawRelation) : List (String × String) :=
  rels.filterMap fun rel =>
    match rel.type, rel.urlResource with
    | some t, some u => if t = "" ∨ u = "" then none else some (t, u)
    | _, _ => none

/-- One `aliases` entry: only its `name` key is read. -/
structure RawAlias where
  name : Option String
deriving DecidableEq

/-- The `area` sub-object: only its `name` key is read. -/
structure RawArea where
  name : Option String
deriving DecidableEq

/-- The artist dump record, restricted to the keys
`_create_normalized_artist_base` reads. -/
structure RawArtistRec where
  id : Option String
  name : Option String
  sortName : Option String
  disambiguation : Option String
  type : Option String
  gender : Option String
  country : Option String
  area : Option RawArea
  lifeSpanEnded : Bool
  aliases : Option (List RawAlias)
  tags : List RawTag
  rating : Option RawRating
  relations : List RawRelation
  annot : Option String
deriving DecidableEq

/-- One album summary of the artist document
(`normalize_radiohead_artist_data` lines 98-105). -/
structure AlbumSummary where
  Id : Option String
  Title : Option String
  Type' : Option String
  SecondaryTypes : List String
  ReleaseStatuses : List String
  OldIds : List String
deriving DecidableEq

/-- The base artist object `_create_normalized_artist_base` builds.  The
dict it returns has exactly the keys below and no `"Albums"` key, so
`Albums` is `none` here; `normalize_radiohead_artist_data` later sets it on
the artist document only.  (The wall-clock-free fields are all modelled.) -/
structure ArtistBase where
  id : Option String
  artistid : Option String
  artistname : Option String
  sortname : Option String
  disambiguation : Option String
  type : String
  gender : Option String
  country : Option String
  area : Option String
  status : String
  artistaliases : List String
  tags : List (Option String)
  rating : Rating
  genres : List String
  links : List (String × String)
  images : List String
  overview : String
  oldids : List String
  Albums : Option (List AlbumSummary)
deriving DecidableEq

/-- `_create_normalized_artist_base` (normalizer.py lines 56-84). -/
def artistBaseOf (a : RawArtistRec) : ArtistBase :=
  { id := a.id
    artistid := a.id
    artistname := a.name
    sortname := a.sortName
    disambiguation := a.disambiguation
    type := match a.type with
      | some t => if t = "" then "Unknown" else t
      | none => "Unknown"
    gender := a.gender
    country := a.country
    area := match a.area with
      | some ar => ar.name
      | none => none
    status := if a.lifeSpanEnded then "ended" else "active"
    artistaliases := (a.aliases.getD []).filterMap fun al =>
      match al.name with
      | some s => if s = "" then none else some s
      | none => none
    tags := a.tags.map (fun t => t.name)
    rating := extract_rating a.rating
    genres := extract_genres a.tags
    links := extract_links a.relations
    images := []
    overview := a.annot.getD ""
    oldids := []
    Albums := none }

/-- The release-group record, restricted to the keys the album summary
reads. -/
structure RGRec where
  id : Option String
  title : Option String
  primaryType : Option String
  secondaryTypes : List String
deriving DecidableEq

/-- One album summary: `ReleaseStatuses` is the literal `["Official"]`
("Defaulting as this is not in release-group data").  `Type'` stands for
the dict key `"Type"` (a keyword in Lean). -/
def albumSummaryOf (rg : RGRec) : AlbumSummary :=
  { Id := rg.id
    Title := rg.title
    Type' := rg.primaryType
    SecondaryTypes := rg.secondaryTypes
    ReleaseStatuses := ["Official"]
    OldIds := [] }

/-- `normalize_radiohead_artist_data` lines 96-109: the summaries, sorted
ascending by `Title` (stable, key `x.get("Title", "")`). -/
def artistAlbumSummaries (rgs : List RGRec) : List AlbumSummary :=
  sortByB (fun x y => lexLe (x.Title.getD "").data (y.Title.getD "").data)
    (rgs.map albumSummaryOf)

/-- A release record, restricted to the `status` key that the
status aggregation of `normalize_album_data` reads. -/
structure RelStatusRec where
  status : Option String
deriving DecidableEq

/-- `normalize_album_data` lines 238-275: `all_release_statuses` collects
`release.get("status", "Unknown")` into a set, then
`sorted(list(all_release_statuses))`. -/
def sortedReleaseStatuses (rels : List RelStatusRec) : List String :=
  sortByB (fun a b => lexLe a.data b.data)
    (dedupL (rels.map fun r => r.status.getD "Unknown"))

/-- `normalize_album_data` lines 274-275: the `ReleaseStatuses` write-back,
guarded by `normalized_album.get("artists")` and
`normalized_album["artists"][0].get("Albums")` both being truthy
(non-empty list under a present key). -/
def applyReleaseStatusesUpdate (arts : List ArtistBase) (sts : List String) :
    List ArtistBase :=
  match arts with
  | [] => []
  | a :: rest =>
    match a.Albums with
    | some (s0 :: srest) =>
      ({ a with Albums := some ({ s0 with ReleaseStatuses := sts } :: srest) }) :: rest
    | _ => a :: rest

/-- The `artists` list of the album document: a single-element list reusing
the artist base object (`normalize_album_data` line 132). -/
def albumArtistsOf (a : RawArtistRec) : List ArtistBase := [artistBaseOf a]

/-- Written from the claim's words: the summary's expected statuses — the
sorted distinct statuses across the release-group's releases, or
`["Official"]` when no releases are loaded. -/
def claimedSummaryStatuses (rels : List RelStatusRec) : List String :=
  if rels = [] then ["Official"] else sortedReleaseStatuses rels

end Normalize

namespace OffsetIndex

/-!
`data_processor/build_indexes.py`, `build_artist_line_index` lines 42-68,
and `data_processor/main.py`, `get_line_by_offset` lines 74-82.  A file is
a list of newline-terminated lines; offsets are measured exactly as
`f.tell()` before each `f.readline()` measures them, one unit per
character of the line plus one for its newline.  `ext` stands for
`json.loads(line).get("id")`: `none` covers both a JSON decode error
(the `except` arm skips the line) and a missing id.
-/

/-- One line of an NDJSON file, newline not included. -/
abbrev Line := List Char

/-- The extent a line occupies in the file: its characters and the
terminating newline. -/
def lineExtent (l : Line) : Nat := l.length + 1

/-- `f.seek(offset); f.readline()`: the text from `off` to the end of the
line it falls in, or `none` past the end of the file. -/
def readLineAt : List Line → Nat → Option Line
  | [], _ => none
  | l :: ls, off =>
    if off < lineExtent l then some (l.drop off)
    else readLineAt ls (off - lineExtent l)

/-- Python dict assignment `index[artist_id] = offset`: the newest binding
shadows older ones. -/
def idxLookup (k : String) (idx : List (String × Nat)) : Option Nat :=
  (idx.find? fun p => p.1 == k).map fun p => p.2

/-- The indexing loop: record the offset before each line, read the line,
keep `(id, offset)` when the id is present and truthy. -/
def buildIndexFrom (ext : Line → Option String) :
    List Line → Nat → List (String × Nat) → List (String × Nat)
  | [], _, idx => idx
  | l :: ls, off, idx =>
    buildIndexFrom ext ls (off + lineExtent l)
      (match ext l with
       | some id => if id = "" then idx else (id, off) :: idx
       | none => idx)

/-- `build_artist_line_index` over the parsed lines of a file. -/
def buildIndex (ext : Line → Option String) (lines : List Line) :
    List (String × Nat) :=
  buildIndexFrom ext lines 0 []

/-- Written from the claim's words: the offset of the last line whose id is
`k` (and `k` is non-empty), lines after position `off`. -/
def lastOffSpec (ext : Line → Option String) (k : String) :
    List Line → Nat → Option Nat
  | [], _ => none
  | l :: ls, off =>
    match lastOffSpec ext k ls (off + lineExtent l) with
    | some v => some v
    | none => if ext l = some k ∧ ¬ k = "" then some off else none

/-- A two-line file, lines `"x"` and `"y"`, for the duplicate-id witness. -/
def dupLines : List Line := [['x'], ['y']]

/-- A concrete parse under which both lines of `dupLines` carry id `"a"`. -/
def dupExt : Line → Option String := fun l =>
  if l = ['x'] then some "a" else if l = ['y'] then some "a" else none

end OffsetIndex

namespace FtsBuild

/-!
`data_processor/build_indexes.py`, `build_artist_search_index` lines
182-243: the FTS5 schema it creates and the row it inserts per artist.
`unidecode` is an external library; it is passed in as `ud`.
-/

/-- The artist dump record, restricted to the keys the builder reads. -/
structure RawArtist where
  id : Option String
  name : Option String
  sortName : Option String
deriving DecidableEq

/-- `CREATE VIRTUAL TABLE artists_fts USING fts5(id UNINDEXED, name,
sort_name, unaccented_name)` — the column list, in order. -/
def artistsFtsColumns : List String :=
  ["id", "name", "sort_name", "unaccented_name"]

/-- The column list the claim (and spec §4.4) describes. -/
def claimedFtsColumns : List String :=
  ["id", "name", "sort_name", "folded_name", "phonetic_primary", "phonetic_secondary"]

/-- The columns `fuzzy_search_artists` SELECTs from `artists_fts`
(`search_service/main.py` lines 169-184). -/
def fuzzySelectColumns : List String :=
  ["id", "name", "metaphone_primary", "metaphone_secondary"]

/-- The insert of the bulk-load loop: `(aid, name, data.get("sort-name"),
unidecode(name))` for rows whose `id` and `name` are both truthy;
`none` when the row is skipped. -/
def ftsRowOf (ud : String → String) (a : RawArtist) :
    Option (String × String × Option String × String) :=
  match a.id, a.name with
  | some aid, some nm =>
    if aid = "" then none
    else if nm = "" then none
    else some (aid, nm, a.sortName, ud nm)
  | _, _ => none

end FtsBuild

namespace ReleaseJoin

/-!
`data_processor/build_indexes.py`, `build_release_indexes` lines 126-169
(the release-group → release join pass), and
`data_processor/preprocess.py`, the release filter's output shape, lines
332-341.  Records are modelled after parsing, restricted to the keys the
join pass reads: the top-level `id`, the nested `release-group.id`, and
the filter's flat `release_group_id`.
-/

/-- The nested `release-group` sub-object. -/
structure NestedRG where
  id : Option String
deriving DecidableEq

/-- A release record as the join pass sees it. -/
structure ReleaseRec where
  id : Option String
  releaseGroup : Option NestedRG
  release_group_id : Option String
deriving DecidableEq

/-- `rg_id = data.get("release-group", {}).get("id")` (line 159): only the
nested shape is consulted. -/
def extractRgId (r : ReleaseRec) : Option String :=
  match r.releaseGroup with
  | some rg => rg.id
  | none => none

/-- `rg_to_releases[rg_id].append(release_id)`: append at the key,
keys in first-appearance order (`defaultdict(list)`). -/
def appendAt (g rid : String) : List (String × List String) → List (String × List String)
  | [] => [(g, [rid])]
  | (k, vs) :: rest =>
    if k = g then (k, vs ++ [rid]) :: rest else (k, vs) :: appendAt g rid rest

/-- The join side of `build_release_indexes`: skip records without a
truthy `id`; append under the extracted release-group id when truthy. -/
def buildRgToReleasesFrom : List ReleaseRec → List (String × List String) →
    List (String × List String)
  | [], acc => acc
  | r :: rs, acc =>
    buildRgToReleasesFrom rs
      (match r.id with
       | none => acc
       | some rid =>
         if rid = "" then acc
         else
           match extractRgId r with
           | some g => if g = "" then acc else appendAt g rid acc
           | none => acc)

/-- The `rg_to_release_ids` table built from a file's records. -/
def buildRgToReleases (rs : List ReleaseRec) : List (String × List String) :=
  buildRgToReleasesFrom rs []

/-- `preprocess_release_file_schema_guided_streaming` lines 332-341
restricted to the same keys: the output carries the flat
`release_group_id := (data.get('release-group') or {}).get('id')` and no
nested `release-group` key (and `None`-valued keys are dropped, which
`Option.none` already models). -/
def filterReleaseShape (raw : ReleaseRec) : ReleaseRec :=
  { id := raw.id
    releaseGroup := none
    release_group_id :=
      match raw.releaseGroup with
      | some rg => rg.id
      | none => none }

end ReleaseJoin

namespace AtomicWrite

/-!
`data_processor/main.py`, `process_single_artist` lines 297-303 (artist
document) and 349-354 (album document): the write is
`with open(path, 'w') as f: json.dump(doc, f)` at the final sharded path.
File-system effects are modelled as an explicit operation trace so the
write pattern itself can be compared with the claim's
temp-file/fsync/rename pattern.
-/

/-- A file-system effect. -/
inductive FsOp
  | write (path content : String)
  | fsync (path : String)
  | rename (src dst : String)
deriving DecidableEq

/-- `get_subdirectory_path(mbid, base, depth=2)`: `mbid[0:2]/mbid[2:4]`. -/
def subdirOf (mbid : String) : String :=
  mbid.take 2 ++ "/" ++ (mbid.drop 2).take 2

/-- The sharded destination of an artist document. -/
def artistDocPath (outputDir mbid : String) : String :=
  outputDir ++ "/artist/" ++ subdirOf mbid ++ "/" ++ mbid ++ ".json"

/-- The effect trace of the source's document write: one direct write at
the final path. -/
def writeDocTrace (path content : String) : List FsOp :=
  [FsOp.write path content]

/-- Written from the claim's words: write the content to a sibling
temporary file, fsync it, rename it into place. -/
def atomicTrace (tmp dst content : String) : List FsOp :=
  [FsOp.write tmp content, FsOp.fsync tmp, FsOp.rename tmp dst]

/-- A file system: path to content, `none` when the file is absent. -/
def FS : Type := String → Option String

/-- The effect of one operation. -/
def applyOp (fs : FS) : FsOp → FS
  | FsOp.write p c => fun q => if q = p then some c else fs q
  | FsOp.fsync _ => fs
  | FsOp.rename s d => fun q => if q = d then fs s else if q = s then none else fs q

/-- Run a trace to completion. -/
def runOps (fs : FS) (ops : List FsOp) : FS := ops.foldl applyOp fs

/-- The state after a crash that interrupted a `write` of `c` to `p`:
only a fragment `c'` of the content made it to the file. -/
def crashMidWrite (fs : FS) (p c' : String) : FS :=
  fun q => if q = p then some c' else fs q

/-- The empty file system. -/
def emptyFS : FS := fun _ => none

end AtomicWrite

namespace SearchSvc

/-!
`search_service/main.py`, `_search_artists_impl` lines 226-453.  The
handler's global `METRICS` dict is passed as explicit state; one request's
environment (its query, the configuration, what the FTS database and the
document store would answer, and the cancellation token's observed value)
is a `SearchEnv`.  The wall-clock field `execution_ms_total` and the
cross-request `_active_requests`/`_result_cache` containers are outside
the model: the cache's answer for this request enters as `cacheHit`.
`HTTPException`s raised in the `try` body are `Except.error (status,
detail)`; the `except Exception` arm that re-raises them is
`searchArtistsImpl`.
-/

/-- The counters of `METRICS` (declaration order of main.py lines 49-62,
wall-clock sum aside). -/
structure Metrics where
  requests_total : ℤ
  requests_active : ℤ
  requests_completed : ℤ
  short_queries : ℤ
  debounced_canceled : ℤ
  cache_hits : ℤ
  cache_misses : ℤ
  cancelled_during_processing : ℤ
  fuzzy_invocations : ℤ
  fuzzy_skipped_short : ℤ
  results_returned_total : ℤ
deriving DecidableEq

/-- The zero-initialised `METRICS`. -/
def initMetrics : Metrics :=
  { requests_total := 0, requests_active := 0, requests_completed := 0
    short_queries := 0, debounced_canceled := 0, cache_hits := 0
    cache_misses := 0, cancelled_during_processing := 0
    fuzzy_invocations := 0, fuzzy_skipped_short := 0
    results_returned_total := 0 }

/-- One FTS candidate row: `SELECT id, name, sort_name, bm25(artists_fts)`. -/
structure FtsRow where
  id : String
  name : List Char
  sortName : Option String
  rank : ℚ

/-- One fuzzy candidate as `fuzzy_search_artists` returns it:
`(artist_id, name, similarity)`. -/
structure FuzzyHit where
  id : String
  name : List Char
  sim : ℚ

/-- One `{artist, album: None, score}` result; the loaded artist document
is an opaque JSON blob. -/
structure SearchResult where
  artist : String
  score : ℤ
deriving DecidableEq

/-- `raise HTTPException(status_code, detail)` / a returned list. -/
abbrev SearchOutcome := Except (Nat × String) (List SearchResult)

/-- One request's environment. -/
structure SearchEnv where
  q : List Char
  limit : Nat
  minQueryLen : Nat
  debounceMs : Nat
  fuzzyMinLen : Nat
  innerLimitMult : Nat
  innerLimitMax : Nat
  cancelledDuringDebounce : Bool
  cancelled : Bool
  cacheHit : Option (List SearchResult)
  dbExists : Bool
  fold : List Char → List Char
  loadArtist : String → Option String
  ftsRows : List FtsRow
  fuzzyHits : List FuzzyHit

/-- The FTS processing loop's accumulator. -/
structure LoopSt where
  results : List SearchResult
  ids : List String
  m : Metrics

/-- The loop over `raw_results` (lines 320-377): a cancelled token breaks
out after counting; a loadable artist is scored with
`codeScore` on the folded query and name and appended; an unloadable one
is skipped. -/
def processFtsRows (env : SearchEnv) : List FtsRow → LoopSt → LoopSt
  | [], st => st
  | row :: rest, st =>
    if env.cancelled then
      { st with m := { st.m with
          cancelled_during_processing := st.m.cancelled_during_processing + 1 } }
    else
      match env.loadArtist row.id with
      | some doc =>
        processFtsRows env rest
          { st with
            results := st.results ++
              [{ artist := doc
                 score := Scoring.codeScore (env.fold env.q) (env.fold row.name) row.rank }]
            ids := st.ids ++ [row.id] }
      | none => processFtsRows env rest st

/-- The loop over the fuzzy hits (lines 384-405): skip ids already seen,
score `max(1, int(similarity - 20))`, no cancellation check. -/
def processFuzzyHits (env : SearchEnv) :
    List FuzzyHit → List SearchResult × List String → List SearchResult × List String
  | [], acc => acc
  | h :: rest, (res, ids) =>
    if ids.contains h.id then processFuzzyHits env rest (res, ids)
    else
      match env.loadArtist h.id with
      | some doc =>
        processFuzzyHits env rest
          (res ++ [{ artist := doc, score := max 1 (truncQ (h.sim - 20)) }],
           ids ++ [h.id])
      | none => processFuzzyHits env rest (res, ids)

/-- `results.sort(key=lambda r: r["score"], reverse=True)`: stable,
descending by score. -/
def sortDesc (rs : List SearchResult) : List SearchResult :=
  sortByB (fun a b => decide (b.score ≤ a.score)) rs

/-- Lines 379-407: the fuzzy fallback — run when fewer than 20 results
came back, the trimmed query reaches `FUZZY_MIN_LEN` and the token is not
cancelled; count `fuzzy_skipped_short` when only the length test fails. -/
def fuzzyStage (env : SearchEnv) (st : LoopSt) : List SearchResult × Metrics :=
  if st.results.length < 20 ∧ env.fuzzyMinLen ≤ (trimL env.q).length
      ∧ env.cancelled = false then
    ((processFuzzyHits env env.fuzzyHits (st.results, st.ids)).1,
     { st.m with fuzzy_invocations := st.m.fuzzy_invocations + 1 })
  else if st.results.length < 20 ∧ (trimL env.q).length < env.fuzzyMinLen then
    (st.results, { st.m with fuzzy_skipped_short := st.m.fuzzy_skipped_short + 1 })
  else (st.results, st.m)

/-- Lines 409-436: sort by score descending, truncate to `limit`, count
the completion. -/
def finishStage (env : SearchEnv) (p : List SearchResult × Metrics) :
    SearchOutcome × Metrics :=
  (Except.ok ((sortDesc p.1).take env.limit),
   { p.2 with
       requests_completed := p.2.requests_completed + 1
       results_returned_total :=
         p.2.results_returned_total + ((sortDesc p.1).take env.limit).length })

/-- The `try` body of `_search_artists_impl`, in source order: metric
entry increments, the short-query gate, the debounce window, the cache
probe, the database existence check (`raise HTTPException(503, ...)`),
the FTS loop, the fuzzy fallback and its skip counter, the final sort,
truncation to `limit`, and the completion counters. -/
def searchBody (env : SearchEnv) (m0 : Metrics) : SearchOutcome × Metrics :=
  let m := { m0 with
    requests_total := m0.requests_total + 1
    requests_active := m0.requests_active + 1 }
  if (trimL env.q).length < env.minQueryLen then
    (Except.ok [], { m with short_queries := m.short_queries + 1 })
  else if 0 < env.debounceMs ∧ env.cancelledDuringDebounce = true then
    (Except.ok [], { m with debounced_canceled := m.debounced_canceled + 1 })
  else
    match env.cacheHit with
    | some cached =>
      (Except.ok cached, { m with
        cache_hits := m.cache_hits + 1
        results_returned_total := m.results_returned_total + cached.length
        requests_completed := m.requests_completed + 1 })
    | none =>
      let m1 := { m with cache_misses := m.cache_misses + 1 }
      if env.dbExists = false then
        (Except.error (503, "Search index not available"), m1)
      else
        finishStage env (fuzzyStage env
          (processFtsRows env
            (env.ftsRows.take (min (max 100 (env.limit * env.innerLimitMult))
              env.innerLimitMax))
            { results := [], ids := [], m := m1 }))

/-- `str(HTTPException)` as the `except` arm interpolates it:
`f"{status_code}: {detail}"`. -/
def httpErrStr (e : Nat × String) : String := toString e.1 ++ ": " ++ e.2

/-- `_search_artists_impl`: the `try` body, then the
`except Exception` arm — which catches `HTTPException` too, `fastapi`'s
`HTTPException` being an `Exception`, and re-raises status 500 with
`f"Search failed: {str(e)}"` — then the `finally` arm's guarded decrement
of `requests_active`. -/
def searchArtistsImpl (env : SearchEnv) (m0 : Metrics) : SearchOutcome × Metrics :=
  let r := searchBody env m0
  let out : SearchOutcome :=
    match r.1 with
    | Except.ok v => Except.ok v
    | Except.error e => Except.error (500, "Search failed: " ++ httpErrStr e)
  let m :=
    if 0 < r.2.requests_active then
      { r.2 with requests_active := r.2.requests_active - 1 }
    else r.2
  (out, m)

/-- A sequence of sequential requests, each seeing the metrics the
previous one left. -/
def runSeq (envs : List SearchEnv) (m : Metrics) : Metrics :=
  envs.foldl (fun mm e => (searchArtistsImpl e mm).2) m

/-- A request for `q=abc&limit=10` against a missing database: trimmed
length 3 meets the default `MIN_QUERY_LEN=3`, no debounce, cold cache. -/
def dbMissingEnv : SearchEnv :=
  { q := ['a', 'b', 'c']
    limit := 10
    minQueryLen := 3
    debounceMs := 0
    fuzzyMinLen := 4
    innerLimitMult := 10
    innerLimitMax := 500
    cancelledDuringDebounce := false
    cancelled := false
    cacheHit := none
    dbExists := false
    fold := fun l => l
    loadArtist := fun _ => none
    ftsRows := []
    fuzzyHits := [] }

/-- A request for `q=ra&limit=10` (trimmed length 2, below the minimum)
against the same missing database, with a populated cache entry: the
short-query gate must answer before either is consulted. -/
def shortQueryEnv : SearchEnv :=
  { dbMissingEnv with
    q := ['r', 'a']
    cacheHit := some [{ artist := "cached-doc", score := 99 }] }

end SearchSvc

/-! Theorems.  Each claim Ci of the specification review is settled by the
theorem that names it below. -/

/-- C8: the release-date normalization maps length-4 inputs to
`YYYY-01-01`, length-7 inputs to `YYYY-MM-01`, length-10 inputs to
themselves, the empty string to itself, and in particular `"1997"`,
`"1997-05"`, `"1997-05-21"`, `""` to `"1997-01-01"`, `"1997-05-01"`,
`"1997-05-21"`, `""`. -/
theorem c8_format_release_date (s : String) :
    (s.length = 4 → Normalize.format_release_date s = s ++ "-01-01")
    ∧ (s.length = 7 → Normalize.format_release_date s = s ++ "-01")
    ∧ (s.length = 10 → Normalize.format_release_date s = s)
    ∧ Normalize.format_release_date "" = ""
    ∧ Normalize.format_release_date "1997" = "1997-01-01"
    ∧ Normalize.format_release_date "1997-05" = "1997-05-01"
    ∧ Normalize.format_release_date "1997-05-21" = "1997-05-21" := by
  have hlen : ∀ n : Nat, n ≠ 0 → s.length = n → ¬ s = "" := by
    intro n hn hsn he
    rw [he] at hsn
    exact hn hsn.symm
  refine ⟨?_, ?_, ?_, by decide, by decide, by decide, by decide⟩
  · intro h
    simp [Normalize.format_release_date, hlen 4 (by decide) h, h]
  · intro h
    simp [Normalize.format_release_date, hlen 7 (by decide) h, h]
  · intro h
    simp [Normalize.format_release_date, hlen 10 (by decide) h, h]

/-- C8 witness: the theorem at the concrete inputs of the claim. -/
theorem c8_format_release_date_witness :
    ("1997".length = 4 ∧ "1997-05".length = 7 ∧ "1997-05-21".length = 10)
    ∧ Normalize.format_release_date "1997" = "1997" ++ "-01-01"
    ∧ Normalize.format_release_date "1997-05" = "1997-05" ++ "-01"
    ∧ Normalize.format_release_date "1997-05-21" = "1997-05-21" :=
  ⟨⟨by decide, by decide, by decide⟩,
   (c8_format_release_date "1997").1 (by decide),
   (c8_format_release_date "1997-05").2.1 (by decide),
   (c8_format_release_date "1997-05-21").2.2.1 (by decide)⟩

/-- C1: the claim says the FTS table is `(id UNINDEXED, name, sort_name,
folded_name, phonetic_primary, phonetic_secondary)` with Double-Metaphone
codes of the folded name.  The builder's table has four columns — no
phonetic columns at all — and the row inserted for an artist with
non-empty id and name is the 4-tuple `(id, name, sort-name,
unidecode(name))`; the service's fuzzy query meanwhile SELECTs
`metaphone_primary`/`metaphone_secondary`, columns the builder never
creates. -/
theorem c1_fts_schema_mismatch :
    (∀ ud : String → String,
      FtsBuild.ftsRowOf ud
        { id := some "m1", name := some "Sigur Ros", sortName := some "Sigur Ros" }
        = some ("m1", "Sigur Ros", some "Sigur Ros", ud "Sigur Ros"))
    ∧ FtsBuild.artistsFtsColumns.length = 4
    ∧ (FtsBuild.artistsFtsColumns == FtsBuild.claimedFtsColumns) = false
    ∧ FtsBuild.artistsFtsColumns.contains "phonetic_primary" = false
    ∧ FtsBuild.artistsFtsColumns.contains "phonetic_secondary" = false
    ∧ FtsBuild.artistsFtsColumns.contains "metaphone_primary" = false
    ∧ FtsBuild.fuzzySelectColumns.contains "metaphone_primary" = true :=
  ⟨fun _ => rfl, by decide, by decide, by decide, by decide, by decide, by decide⟩

/-- C3: the claim says the join extractor accepts both the nested
`release-group.id` shape and the filter's flat `release_group_id` shape.
The extractor reads only the nested key: the filter's own output record
for release `r1` in release-group `g1` carries the flat key, yet builds an
empty join index, while the nested-shape record is indexed. -/
theorem c3_flat_shape_not_indexed :
    ReleaseJoin.filterReleaseShape
        { id := some "r1", releaseGroup := some { id := some "g1" },
          release_group_id := none }
      = { id := some "r1", releaseGroup := none, release_group_id := some "g1" }
    ∧ ReleaseJoin.extractRgId
        { id := some "r1", releaseGroup := none, release_group_id := some "g1" } = none
    ∧ ReleaseJoin.buildRgToReleases
        [{ id := some "r1", releaseGroup := none, release_group_id := some "g1" }] = []
    ∧ ReleaseJoin.buildRgToReleases
        [{ id := some "r1", releaseGroup := some { id := some "g1" },
           release_group_id := none }]
      = [("g1", ["r1"])] :=
  ⟨rfl, rfl, rfl, rfl⟩

/-- C5: the claim says every document is written to a sibling temporary
file, fsynced and renamed into place, so no partial document is ever
visible.  The source writes once, directly at the final sharded path: the
trace is a single `write` (never the 3-step atomic trace), a completed run
does put the document at its path, but a crash mid-write leaves a partial
file visible there — while under the claim's atomic trace the final path
always holds either its old content or the complete document. -/
theorem c5_direct_write_not_atomic :
    AtomicWrite.writeDocTrace
        (AtomicWrite.artistDocPath "/data/processed" "a1b2c3d4") "DOC"
      = [AtomicWrite.FsOp.write
          (AtomicWrite.artistDocPath "/data/processed" "a1b2c3d4") "DOC"]
    ∧ (∀ tmp c : String,
        ((AtomicWrite.writeDocTrace
            (AtomicWrite.artistDocPath "/data/processed" "a1b2c3d4") "DOC").length
          == (AtomicWrite.atomicTrace tmp
                (AtomicWrite.artistDocPath "/data/processed" "a1b2c3d4") c).length)
          = false)
    ∧ AtomicWrite.runOps AtomicWrite.emptyFS
        (AtomicWrite.writeDocTrace
          (AtomicWrite.artistDocPath "/data/processed" "a1b2c3d4") "DOC")
        (AtomicWrite.artistDocPath "/data/processed" "a1b2c3d4") = some "DOC"
    ∧ AtomicWrite.crashMidWrite AtomicWrite.emptyFS
        (AtomicWrite.artistDocPath "/data/processed" "a1b2c3d4") "D"
        (AtomicWrite.artistDocPath "/data/processed" "a1b2c3d4") = some "D"
    ∧ (∀ (k : Nat) (fs : AtomicWrite.FS),
        AtomicWrite.runOps fs
            ((AtomicWrite.atomicTrace
              (AtomicWrite.artistDocPath "/data/processed" "a1b2c3d4" ++ ".tmp")
              (AtomicWrite.artistDocPath "/data/processed" "a1b2c3d4") "DOC").take k)
            (AtomicWrite.artistDocPath "/data/processed" "a1b2c3d4")
          = fs (AtomicWrite.artistDocPath "/data/processed" "a1b2c3d4")
        ∨ AtomicWrite.runOps fs
            ((AtomicWrite.atomicTrace
              (AtomicWrite.artistDocPath "/data/processed" "a1b2c3d4" ++ ".tmp")
              (AtomicWrite.artistDocPath "/data/processed" "a1b2c3d4") "DOC").take k)
            (AtomicWrite.artistDocPath "/data/processed" "a1b2c3d4")
          = some "DOC") := by
  refine ⟨rfl, fun _ _ => rfl, by decide, by decide, ?_⟩
  intro k fs
  match k with
  | 0 => exact Or.inl rfl
  | 1 =>
    left
    simp only [AtomicWrite.atomicTrace, AtomicWrite.runOps, List.take,
      List.take_nil, List.foldl, AtomicWrite.applyOp]
    rw [if_neg (by decide)]
  | 2 =>
    left
    simp only [AtomicWrite.atomicTrace, AtomicWrite.runOps, List.take,
      List.take_nil, List.foldl, AtomicWrite.applyOp]
    rw [if_neg (by decide)]
  | (n + 3) =>
    right
    simp only [AtomicWrite.atomicTrace, AtomicWrite.runOps, List.take,
      List.take_nil, List.foldl, AtomicWrite.applyOp]
    simp

/-- A prefix test that succeeds names a decomposition of the text. -/
theorem startsWithL_ex {p : List Char} : ∀ {h : List Char},
    startsWithL p h = true → ∃ t, h = p ++ t := by
  induction p with
  | nil => exact fun hs => ⟨_, rfl⟩
  | cons a as ih =>
    intro h hs
    cases h with
    | nil => simp [startsWithL] at hs
    | cons b bs =>
      rw [startsWithL, Bool.and_eq_true, beq_iff_eq] at hs
      obtain ⟨hab, hrest⟩ := hs
      obtain ⟨t, ht⟩ := ih hrest
      exact ⟨t, by rw [List.cons_append, ← hab, ht]⟩

/-- A list is a prefix of itself followed by anything. -/
theorem startsWithL_self_append (l t : List Char) :
    startsWithL l (l ++ t) = true := by
  induction l with
  | nil => rfl
  | cons a as ih => simp [startsWithL, ih]

/-- A list is a prefix of itself. -/
theorem startsWithL_self (l : List Char) : startsWithL l l = true := by
  have h := startsWithL_self_append l []
  simpa using h

/-- Substring search finds a needle sitting at the end of the text. -/
theorem containsL_pre_append (pre needle : List Char) :
    containsL needle (pre ++ needle) = true := by
  induction pre with
  | nil =>
    cases needle with
    | nil => rfl
    | cons c cs => simp [containsL, startsWithL_self]
  | cons a pre ih => simp [containsL, ih]

/-- A suffix test that succeeds names a decomposition of the text. -/
theorem endsWithL_ex {p n : List Char} (h : endsWithL p n = true) :
    ∃ x, n = x ++ p := by
  rw [endsWithL] at h
  obtain ⟨t, ht⟩ := startsWithL_ex h
  refine ⟨t.reverse, ?_⟩
  have h2 := congrArg List.reverse ht
  simpa using h2

/-- C6 counterexample: at BM25 rank 0 (a falsy float) the code's base
score is 50, not `max(1, round(100 - 0)) = 100` — for the exact-match
query/name pair `"ab"`/`"ab"` the code scores 100 where the claim's
formula gives 150. -/
theorem c6_score_counterexample :
    Scoring.codeScore ['a', 'b'] ['a', 'b'] 0 = 100
    ∧ Scoring.claimScore ['a', 'b'] ['a', 'b'] 0 = 150
    ∧ ((100 : ℤ) == 150) = false := by
  have hb : Scoring.boostOf ['a', 'b'] ['a', 'b'] = 50 := by decide
  have hcb : Scoring.claimBoost ['a', 'b'] ['a', 'b'] = 50 := by decide
  refine ⟨?_, ?_, by decide⟩
  · rw [Scoring.codeScore, hb]
    norm_num [Scoring.codeBase]
  · rw [Scoring.claimScore, hcb]
    norm_num [Scoring.claimBase, pyRound]

/-- C6 as amended: the score is `base + boost` with `base = 50` at rank 0
and `max(1, trunc(100 - r))` otherwise, and a name of which the query is a
proper suffix receives boost 20 through the space-padded word-contains
branch — the 10-point suffix branch is unreachable. -/
theorem c6_score_amended (qf nf : List Char) (r : ℚ)
    (h1 : ¬ nf = qf)
    (h2 : startsWithL (qf ++ [' ']) nf = false)
    (h3 : endsWithL (' ' :: qf) nf = true) :
    Scoring.codeScore qf nf r = Scoring.codeBase r + 20
    ∧ Scoring.codeBase 0 = 50 := by
  have hcontains :
      containsL ((' ' :: qf) ++ [' ']) ((' ' :: nf) ++ [' ']) = true := by
    obtain ⟨x, hx⟩ := endsWithL_ex h3
    have hsplit : (' ' :: nf) ++ [' '] = (' ' :: x) ++ ((' ' :: qf) ++ [' ']) := by
      rw [hx]
      simp
    rw [hsplit]
    exact containsL_pre_append (' ' :: x) ((' ' :: qf) ++ [' '])
  constructor
  · rw [Scoring.codeScore, Scoring.boostOf]
    rw [if_neg h1, if_neg (by simp [h2]), if_pos hcontains]
  · norm_num [Scoring.codeBase]

/-- C6 witness: the amended theorem at query `"ab"`, name `"cd ab"` (a
proper suffix match), rank 0. -/
theorem c6_score_amended_witness :
    (¬ (['c', 'd', ' ', 'a', 'b'] : List Char) = ['a', 'b']
      ∧ startsWithL (['a', 'b'] ++ [' ']) ['c', 'd', ' ', 'a', 'b'] = false
      ∧ endsWithL (' ' :: ['a', 'b']) ['c', 'd', ' ', 'a', 'b'] = true)
    ∧ (Scoring.codeScore ['a', 'b'] ['c', 'd', ' ', 'a', 'b'] 0
        = Scoring.codeBase 0 + 20
      ∧ Scoring.codeBase 0 = 50) :=
  ⟨⟨by decide, by decide, by decide⟩,
   c6_score_amended ['a', 'b'] ['c', 'd', ' ', 'a', 'b'] 0
     (by decide) (by decide) (by decide)⟩

/-- Unrolling the index-building loop: the lookup answers the most recent
binding for `k` among the processed lines, falling back to the
accumulator. -/
theorem buildIndexFrom_lookup (ext : OffsetIndex.Line → Option String) (k : String) :
    ∀ (ls : List OffsetIndex.Line) (off0 : Nat) (idx : List (String × Nat)),
    OffsetIndex.idxLookup k (OffsetIndex.buildIndexFrom ext ls off0 idx)
      = match OffsetIndex.lastOffSpec ext k ls off0 with
        | some v => some v
        | none => OffsetIndex.idxLookup k idx := by
  intro ls
  induction ls with
  | nil => intro off0 idx; rfl
  | cons l ls ih =>
    intro off0 idx
    rcases htail : OffsetIndex.lastOffSpec ext k ls (off0 + OffsetIndex.lineExtent l)
      with _ | v
    · rcases hext : ext l with _ | id
      · simp only [OffsetIndex.buildIndexFrom, OffsetIndex.lastOffSpec, htail, hext,
          ih (off0 + OffsetIndex.lineExtent l)]
        rw [if_neg (fun hc => Option.noConfusion hc.1)]
      · by_cases hid : id = ""
        · subst hid
          simp only [OffsetIndex.buildIndexFrom, OffsetIndex.lastOffSpec, htail, hext,
            ih (off0 + OffsetIndex.lineExtent l)]
          by_cases hk : k = ""
          · subst hk
            simp
          · have hk' : ¬ ("" : String) = k := fun h => hk h.symm
            simp [hk']
        · by_cases hkid : k = id
          · subst hkid
            simp only [OffsetIndex.buildIndexFrom, OffsetIndex.lastOffSpec, htail, hext,
              ih (off0 + OffsetIndex.lineExtent l)]
            simp [hid, OffsetIndex.idxLookup, List.find?]
          · simp only [OffsetIndex.buildIndexFrom, OffsetIndex.lastOffSpec, htail, hext,
              ih (off0 + OffsetIndex.lineExtent l)]
            have hkid' : ¬ id = k := fun h => hkid h.symm
            have hbeq : (id == k) = false :=
              beq_eq_false_iff_ne.mpr hkid'
            simp [hid, hkid', hbeq, OffsetIndex.idxLookup, List.find?]
    · simp only [OffsetIndex.buildIndexFrom, OffsetIndex.lastOffSpec, htail,
        ih (off0 + OffsetIndex.lineExtent l)]

/-- An offset the last-occurrence spec names reads back a line whose id is
the key. -/
theorem lastOffSpec_readLine (ext : OffsetIndex.Line → Option String) (k : String) :
    ∀ (ls : List OffsetIndex.Line) (off0 v : Nat),
    OffsetIndex.lastOffSpec ext k ls off0 = some v →
    off0 ≤ v ∧ ∃ l, OffsetIndex.readLineAt ls (v - off0) = some l
      ∧ ext l = some k ∧ ¬ k = "" := by
  intro ls
  induction ls with
  | nil => intro off0 v h; simp [OffsetIndex.lastOffSpec] at h
  | cons l ls ih =>
    intro off0 v h
    rw [OffsetIndex.lastOffSpec] at h
    rcases htail : OffsetIndex.lastOffSpec ext k ls (off0 + OffsetIndex.lineExtent l)
      with _ | w
    · rw [htail] at h
      by_cases hc : ext l = some k ∧ ¬ k = ""
      · rw [if_pos hc] at h
        injection h with hv
        rw [← hv]
        refine ⟨Nat.le_refl _, l, ?_, hc.1, hc.2⟩
        rw [Nat.sub_self, OffsetIndex.readLineAt,
          if_pos (by simp [OffsetIndex.lineExtent])]
        simp
      · rw [if_neg hc] at h
        cases h
    · rw [htail] at h
      injection h with hv
      rw [← hv]
      obtain ⟨hle, l', hrd, hext, hk⟩ := ih (off0 + OffsetIndex.lineExtent l) w htail
      constructor
      · exact Nat.le_trans (Nat.le_add_right off0 (OffsetIndex.lineExtent l)) hle
      · refine ⟨l', ?_, hext, hk⟩
        rw [OffsetIndex.readLineAt, if_neg (by omega)]
        have harith : w - off0 - OffsetIndex.lineExtent l
            = w - (off0 + OffsetIndex.lineExtent l) := by omega
        rw [harith]
        exact hrd

/-- C7: for every MBID `k` the built offset index answers exactly the
offset of the last line carrying id `k` (Python dict assignment: the last
occurrence wins), and seeking to that offset and reading one line yields a
line whose extracted id is `k`. -/
theorem c7_offset_roundtrip (ext : OffsetIndex.Line → Option String)
    (lines : List OffsetIndex.Line) (k : String) :
    OffsetIndex.idxLookup k (OffsetIndex.buildIndex ext lines)
      = OffsetIndex.lastOffSpec ext k lines 0
    ∧ ∀ off, OffsetIndex.idxLookup k (OffsetIndex.buildIndex ext lines) = some off →
        ∃ l, OffsetIndex.readLineAt lines off = some l ∧ ext l = some k ∧ ¬ k = "" := by
  have hmain : OffsetIndex.idxLookup k (OffsetIndex.buildIndex ext lines)
      = OffsetIndex.lastOffSpec ext k lines 0 := by
    rw [OffsetIndex.buildIndex, buildIndexFrom_lookup ext k lines 0 []]
    rcases h : OffsetIndex.lastOffSpec ext k lines 0 with _ | v <;> rfl
  refine ⟨hmain, ?_⟩
  intro off hoff
  rw [hmain] at hoff
  obtain ⟨_, l, hrd, hext, hk⟩ := lastOffSpec_readLine ext k lines 0 off hoff
  refine ⟨l, ?_, hext, hk⟩
  rw [Nat.sub_zero] at hrd
  exact hrd

/-- C7 witness: on the two-line file whose lines both carry id `"a"`, the
index answers offset 2 — the second (last) line — and the read-back at
offset 2 parses to id `"a"`. -/
theorem c7_offset_roundtrip_witness :
    OffsetIndex.idxLookup "a" (OffsetIndex.buildIndex OffsetIndex.dupExt OffsetIndex.dupLines)
      = some 2
    ∧ ∃ l, OffsetIndex.readLineAt OffsetIndex.dupLines 2 = some l
        ∧ OffsetIndex.dupExt l = some "a" ∧ ¬ "a" = "" :=
  ⟨by decide,
   (c7_offset_roundtrip OffsetIndex.dupExt OffsetIndex.dupLines "a").2 2 (by decide)⟩

/-- C4: the claim says the album summary's `ReleaseStatuses` is the sorted
distinct statuses of the release-group's releases when releases are
loaded.  The artist normalizer hardcodes `["Official"]` into every
summary, and the write-back in `normalize_album_data` is dead: the
embedded artist base carries no `Albums` key, so its guard never fires —
with a loaded release of status `"Promotion"`, the claim expects
`["Promotion"]` but every document keeps `["Official"]`. -/
theorem c4_release_statuses_always_official :
    Normalize.artistAlbumSummaries
        [{ id := some "g1", title := some "OK Computer",
           primaryType := some "Album", secondaryTypes := [] }]
      = [{ Id := some "g1", Title := some "OK Computer", Type' := some "Album",
           SecondaryTypes := [], ReleaseStatuses := ["Official"], OldIds := [] }]
    ∧ Normalize.sortedReleaseStatuses [{ status := some "Promotion" }] = ["Promotion"]
    ∧ Normalize.claimedSummaryStatuses [{ status := some "Promotion" }] = ["Promotion"]
    ∧ (["Official"] == ["Promotion"]) = false
    ∧ (Normalize.artistBaseOf
        { id := some "a1", name := some "Radiohead", sortName := some "Radiohead",
          disambiguation := none, type := some "Group", gender := none,
          country := some "GB", area := none, lifeSpanEnded := false,
          aliases := none, tags := [], rating := none, relations := [],
          annot := none }).Albums = none
    ∧ Normalize.applyReleaseStatusesUpdate
        (Normalize.albumArtistsOf
          { id := some "a1", name := some "Radiohead", sortName := some "Radiohead",
            disambiguation := none, type := some "Group", gender := none,
            country := some "GB", area := none, lifeSpanEnded := false,
            aliases := none, tags := [], rating := none, relations := [],
            annot := none })
        (Normalize.sortedReleaseStatuses [{ status := some "Promotion" }])
      = Normalize.albumArtistsOf
          { id := some "a1", name := some "Radiohead", sortName := some "Radiohead",
            disambiguation := none, type := some "Group", gender := none,
            country := some "GB", area := none, lifeSpanEnded := false,
            aliases := none, tags := [], rating := none, relations := [],
            annot := none } :=
  ⟨rfl, rfl, rfl, by decide, rfl, rfl⟩

/-- The FTS processing loop never touches `requests_active`. -/
theorem processFtsRows_active (env : SearchSvc.SearchEnv) :
    ∀ (rows : List SearchSvc.FtsRow) (st : SearchSvc.LoopSt),
    (SearchSvc.processFtsRows env rows st).m.requests_active
      = st.m.requests_active := by
  intro rows
  induction rows with
  | nil => intro st; rfl
  | cons row rest ih =>
    intro st
    rw [SearchSvc.processFtsRows]
    split
    · rfl
    · rcases h : env.loadArtist row.id with _ | doc <;> simp only [h] <;> exact ih _

/-- The fuzzy stage never touches `requests_active`. -/
theorem fuzzyStage_active (env : SearchSvc.SearchEnv) (st : SearchSvc.LoopSt) :
    (SearchSvc.fuzzyStage env st).2.requests_active = st.m.requests_active := by
  rw [SearchSvc.fuzzyStage]
  split
  · rfl
  · split
    · rfl
    · rfl

/-- The finishing stage never touches `requests_active`. -/
theorem finishStage_active (env : SearchSvc.SearchEnv)
    (p : List SearchSvc.SearchResult × SearchSvc.Metrics) :
    (SearchSvc.finishStage env p).2.requests_active = p.2.requests_active := rfl

/-- The `try` body leaves `requests_active` exactly one above its entry
value on every branch. -/
theorem searchBody_active (env : SearchSvc.SearchEnv) (m0 : SearchSvc.Metrics) :
    (SearchSvc.searchBody env m0).2.requests_active = m0.requests_active + 1 := by
  simp only [SearchSvc.searchBody]
  split
  · rfl
  · split
    · rfl
    · split
      · rfl
      · split
        · rfl
        · rw [finishStage_active, fuzzyStage_active, processFtsRows_active]

/-- One whole request (body, exception arm, `finally` arm) restores
`requests_active` when it starts non-negative. -/
theorem searchImpl_active (e : SearchSvc.SearchEnv) (mm : SearchSvc.Metrics)
    (hmm : 0 ≤ mm.requests_active) :
    (SearchSvc.searchArtistsImpl e mm).2.requests_active = mm.requests_active := by
  have hb := searchBody_active e mm
  simp only [SearchSvc.searchArtistsImpl]
  rw [if_pos (by omega)]
  simp only []
  omega

/-- Sequential requests preserve a non-negative `requests_active`. -/
theorem runSeq_active (envs : List SearchSvc.SearchEnv) :
    ∀ (m : SearchSvc.Metrics), 0 ≤ m.requests_active →
    (SearchSvc.runSeq envs m).requests_active = m.requests_active := by
  induction envs with
  | nil => intro m _; rfl
  | cons e es ih =>
    intro m hm
    have hstep := searchImpl_active e m hm
    rw [SearchSvc.runSeq, List.foldl]
    have htail := ih (SearchSvc.searchArtistsImpl e m).2 (by rw [hstep]; exact hm)
    rw [SearchSvc.runSeq] at htail
    rw [htail, hstep]

/-- C10: `requests_active` is incremented once at entry and decremented
once in the `finally` arm on every exit path, the decrement is guarded, so
starting from a non-negative value a request restores it exactly, it never
goes negative, and any sequence of sequential requests returns it to its
initial value. -/
theorem c10_requests_active_balanced (env : SearchSvc.SearchEnv)
    (envs : List SearchSvc.SearchEnv) (m : SearchSvc.Metrics)
    (h : 0 ≤ m.requests_active) :
    (SearchSvc.searchBody env m).2.requests_active = m.requests_active + 1
    ∧ (SearchSvc.searchArtistsImpl env m).2.requests_active = m.requests_active
    ∧ 0 ≤ (SearchSvc.searchArtistsImpl env m).2.requests_active
    ∧ (SearchSvc.runSeq envs m).requests_active = m.requests_active := by
  refine ⟨searchBody_active env m, searchImpl_active env m h, ?_, runSeq_active envs m h⟩
  rw [searchImpl_active env m h]
  exact h

/-- C10 witness: two sequential requests — one short query, one against
the missing database — starting from the zero metrics. -/
theorem c10_requests_active_balanced_witness :
    ((0 : ℤ) ≤ SearchSvc.initMetrics.requests_active)
    ∧ ((SearchSvc.searchBody SearchSvc.dbMissingEnv SearchSvc.initMetrics).2.requests_active
        = SearchSvc.initMetrics.requests_active + 1
      ∧ (SearchSvc.searchArtistsImpl SearchSvc.dbMissingEnv SearchSvc.initMetrics).2.requests_active
        = SearchSvc.initMetrics.requests_active
      ∧ (0 : ℤ) ≤ (SearchSvc.searchArtistsImpl SearchSvc.dbMissingEnv SearchSvc.initMetrics).2.requests_active
      ∧ (SearchSvc.runSeq [SearchSvc.shortQueryEnv, SearchSvc.dbMissingEnv]
          SearchSvc.initMetrics).requests_active
        = SearchSvc.initMetrics.requests_active) :=
  ⟨by decide,
   c10_requests_active_balanced SearchSvc.dbMissingEnv
     [SearchSvc.shortQueryEnv, SearchSvc.dbMissingEnv]
     SearchSvc.initMetrics (by decide)⟩

/-- C9: a request whose trimmed query is below the minimum length answers
`200 OK` with the empty list after touching only `requests_total` and
`short_queries` — before the debounce/cancellation machinery, before the
cache (`cache_hits`/`cache_misses` untouched), and before the database
existence check, whatever `dbExists` and the cache hold. -/
theorem c9_short_query_early_return (env : SearchSvc.SearchEnv)
    (m : SearchSvc.Metrics)
    (h1 : (trimL env.q).length < env.minQueryLen)
    (h2 : 0 ≤ m.requests_active) :
    SearchSvc.searchArtistsImpl env m
      = (Except.ok [],
         { m with
             requests_total := m.requests_total + 1
             short_queries := m.short_queries + 1 }) := by
  obtain ⟨t, a, c, s, d, ch, cm, cp, fi, fs, rr⟩ := m
  simp only [SearchSvc.searchArtistsImpl, SearchSvc.searchBody]
  rw [if_pos h1]
  simp only []
  rw [if_pos (by simp at h2 ⊢; omega)]
  simp [Int.add_sub_cancel]

/-- C9 witness: the short query `"ra"` with the database absent and a
populated cache entry still answers the empty list, bumping only
`requests_total` and `short_queries`. -/
theorem c9_short_query_early_return_witness :
    ((trimL SearchSvc.shortQueryEnv.q).length < SearchSvc.shortQueryEnv.minQueryLen
      ∧ (0 : ℤ) ≤ SearchSvc.initMetrics.requests_active
      ∧ SearchSvc.shortQueryEnv.dbExists = false
      ∧ SearchSvc.shortQueryEnv.cacheHit
          = some [{ artist := "cached-doc", score := 99 }])
    ∧ SearchSvc.searchArtistsImpl SearchSvc.shortQueryEnv SearchSvc.initMetrics
      = (Except.ok [],
         { SearchSvc.initMetrics with
             requests_total := SearchSvc.initMetrics.requests_total + 1
             short_queries := SearchSvc.initMetrics.short_queries + 1 }) :=
  ⟨⟨by decide, by decide, by decide, by decide⟩,
   c9_short_query_early_return SearchSvc.shortQueryEnv SearchSvc.initMetrics
     (by decide) (by decide)⟩

/-- C2: the claim (and spec) say a missing FTS database file answers 503,
not 500.  The body does raise 503, but `_search_artists_impl`'s blanket
`except Exception` catches `HTTPException` too and re-raises 500
(`"Search failed: 503: Search index not available"`): the client receives
500. -/
theorem c2_missing_db_yields_500 :
    (SearchSvc.searchBody SearchSvc.dbMissingEnv SearchSvc.initMetrics).1
      = Except.error (503, "Search index not available")
    ∧ SearchSvc.searchArtistsImpl SearchSvc.dbMissingEnv SearchSvc.initMetrics
      = (Except.error (500, "Search failed: 503: Search index not available"),
         { SearchSvc.initMetrics with requests_total := 1, cache_misses := 1 }) := by
  constructor
  · rfl
  · rfl

end LidMeta
